/-
Verification of the motorLogger repository's documented behaviour.

The repository is a family of near-duplicate Python GUI loggers
(`tkinter-best.py`, `motor_logger_gui.py`, `MotorLogger.py`,
`MotorLogger4.py`, `Forced10secs.py`, `NewVersion.py`, `motor_logger_tk.py`,
`ResolverEncoderApp.py`).  This file gives a shallow embedding of the pure
computations and of the control-flow skeletons that the specification talks
about, and proves (or refutes) the spec's claims about them.

Conventions of the embedding:
* Python `float` is modelled as `ℚ` (all the arithmetic the spec mentions is
  ratios of decimal literals, so the rational semantics agrees with the IEEE
  one at every comparison that matters here);
* Python `int` is `ℤ`, `Optional[T]` is `Option T`;
* Python's `round` (banker's rounding, round-half-to-even) is `pyRound`;
* stateful workers are modelled as explicit event-trace generators
  parameterised over the outcomes chosen by the environment (the vendor SDK
  and the timing of the GUI thread).
-/
import Mathlib

namespace MotorLogger

/-! ## Python-level helpers -/

/-- Python 3 `round` to an integer: round-half-to-even (banker's rounding). -/
def pyRound (q : ℚ) : ℤ :=
  let fl := ⌊q⌋
  let frac := q - fl
  if frac < 1/2 then fl
  else if 1/2 < frac then fl + 1
  else if fl % 2 = 0 then fl else fl + 1

/-! ## Feasibility arithmetic, `tkinter-best.py`

`PWM_HZ = 20_000.0` (line 72), `FeasInputs` (lines 92-99), `FeasOutputs`
(lines 101-111), `_badge_from_ratio` (lines 113-116), `compute_feas`
(lines 118-150).  The `bullets` field of `FeasOutputs` is display-only prose
built from the numeric fields and is not part of any claim; it is omitted. -/

def PWM_HZ : ℚ := 20000

/-- `FeasInputs` dataclass of `tkinter-best.py`. -/
structure FeasInputs where
  V : ℤ
  Bv_list : List ℤ
  f : ℤ
  baud : ℤ
  duration_s : ℚ
  sda_bytes : Option ℤ := none
deriving Repr, DecidableEq

/-- UART-load badge returned by `_badge_from_ratio`. -/
inductive Badge where
  | GREEN | AMBER | RED
deriving Repr, DecidableEq

/-- `_badge_from_ratio` of `tkinter-best.py`:
`r < 0.4 → GREEN`, `r < 0.7 → AMBER`, else `RED`. -/
def badge_from_ratio (r : ℚ) : Badge :=
  if r < 2/5 then .GREEN
  else if r < 7/10 then .AMBER
  else .RED

/-- Numeric fields of the `FeasOutputs` dataclass of `tkinter-best.py`. -/
structure FeasOutputs where
  Fs : ℚ
  bytes_per_sample : ℤ
  payload_Bps : ℚ
  uart_capacity_Bps : ℚ
  uart_ratio : ℚ
  uart_badge : Badge
  total_bytes : ℤ
  buffer_time_s : Option ℚ
deriving Repr, DecidableEq

/-- `compute_feas` of `tkinter-best.py` (lines 118-150), transliterated.
Python truthiness: `inp.Bv_list` is falsy iff empty; `inp.sda_bytes` is falsy
iff it is `None` or `0`. -/
def compute_feas (inp : FeasInputs) : FeasOutputs :=
  let f : ℤ := max 1 inp.f
  let Fs : ℚ := PWM_HZ / (f : ℚ)
  let bytes_per_sample : ℤ :=
    match inp.Bv_list with
    | [] => 2 * inp.V
    | _ => inp.Bv_list.sum
  let payload_Bps : ℚ := (bytes_per_sample : ℚ) * Fs
  let uart_capacity_Bps : ℚ := (inp.baud : ℚ) / 10
  let ratio : ℚ := payload_Bps / max 1 uart_capacity_Bps
  let badge := badge_from_ratio ratio
  let total_bytes : ℤ := pyRound ((bytes_per_sample : ℚ) * Fs * max 0 inp.duration_s)
  let buffer_time : Option ℚ :=
    match inp.sda_bytes with
    | some s =>
        if s ≠ 0 ∧ 0 < bytes_per_sample then
          some ((s : ℚ) * (f : ℚ) / ((bytes_per_sample : ℚ) * PWM_HZ))
        else none
    | none => none
  { Fs := Fs
    bytes_per_sample := bytes_per_sample
    payload_Bps := payload_Bps
    uart_capacity_Bps := uart_capacity_Bps
    uart_ratio := ratio
    uart_badge := badge
    total_bytes := total_bytes
    buffer_time_s := buffer_time }

/-! ## Feasibility arithmetic, `motor_logger_gui.py`

`LOOP_HZ = 20_000` (line 32), `FeasibilityResult` (lines 203-212),
`compute_feasibility` (lines 215-250). -/

def LOOP_HZ : ℚ := 20000

/-- Risk colour assigned by `compute_feasibility`. -/
inductive Color where
  | red | orange | green
deriving Repr, DecidableEq

/-- `FeasibilityResult` dataclass of `motor_logger_gui.py` (the `load_text`
string is determined by `color`; kept as the colour's message). -/
structure FeasibilityResult where
  uart_bytes_per_sec : ℚ
  uart_capacity : ℚ
  load_ratio : ℚ
  buffer_time : Option ℚ
  total_size : ℚ
  Fs : ℚ
  color : Color
deriving Repr, DecidableEq

/-- `compute_feasibility` of `motor_logger_gui.py` (lines 215-250),
transliterated.  `num_vars` is accepted and ignored exactly as in the source.
The rational division `a / b` is only ever used with `b ≠ 0` on the claims'
input range; the `load_ratio` guard reproduces the source's
`if uart_capacity > 0 else 0`. -/
def compute_feasibility (_num_vars : ℤ) (bytes_per_var : List ℤ) (f : ℤ)
    (baud : ℤ) (duration_s : ℚ) (sda_bytes : Option ℤ) : FeasibilityResult :=
  let bytes_per_sample : ℤ := bytes_per_var.sum
  let Fs : ℚ := LOOP_HZ / (f : ℚ)
  let uart_bytes_per_sec : ℚ := (bytes_per_sample : ℚ) * Fs
  let uart_capacity : ℚ := (baud : ℚ) / 10
  let load_ratio : ℚ := if 0 < uart_capacity then uart_bytes_per_sec / uart_capacity else 0
  let color : Color :=
    if 7/10 < load_ratio then .red
    else if 2/5 < load_ratio then .orange
    else .green
  let buffer_time : Option ℚ :=
    match sda_bytes with
    | some s =>
        if 0 < bytes_per_sample ∧ 0 < Fs then
          some ((s : ℚ) / ((bytes_per_sample : ℚ) * Fs))
        else none
    | none => none
  let total_size : ℚ := (bytes_per_sample : ℚ) * Fs * duration_s
  { uart_bytes_per_sec := uart_bytes_per_sec
    uart_capacity := uart_capacity
    load_ratio := load_ratio
    buffer_time := buffer_time
    total_size := total_size
    Fs := Fs
    color := color }

/-- The output demanded verbatim by the specification sentence for
`compute_feas`: `Fs = 20000 / max(1, f)`; `bytes_per_sample = sum(Bv_list)`
when non-empty and `2*V` otherwise; `payload_Bps = bytes_per_sample * Fs`;
`uart_capacity_Bps = baud / 10`;
`uart_ratio = payload_Bps / max(1, uart_capacity_Bps)`;
`total_bytes = round(bytes_per_sample * Fs * max(0, duration_s))`; and
`buffer_time_s = sda_bytes * f / (bytes_per_sample * 20000)` exactly when
`sda_bytes` is non-zero and `bytes_per_sample > 0` (`None` otherwise) —
note the *unclamped* `f` in the buffer-time formula. -/
def feasClaimLiteral (inp : FeasInputs) : FeasOutputs :=
  let Fs : ℚ := 20000 / ((max 1 inp.f : ℤ) : ℚ)
  let bytes_per_sample : ℤ :=
    if inp.Bv_list = [] then 2 * inp.V else inp.Bv_list.sum
  let payload_Bps : ℚ := (bytes_per_sample : ℚ) * Fs
  let uart_capacity_Bps : ℚ := (inp.baud : ℚ) / 10
  let uart_ratio : ℚ := payload_Bps / max 1 uart_capacity_Bps
  { Fs := Fs
    bytes_per_sample := bytes_per_sample
    payload_Bps := payload_Bps
    uart_capacity_Bps := uart_capacity_Bps
    uart_ratio := uart_ratio
    uart_badge := badge_from_ratio uart_ratio
    total_bytes := pyRound ((bytes_per_sample : ℚ) * Fs * max 0 inp.duration_s)
    buffer_time_s :=
      match inp.sda_bytes with
      | some s =>
          if s ≠ 0 ∧ 0 < bytes_per_sample then
            some ((s : ℚ) * (inp.f : ℚ) / ((bytes_per_sample : ℚ) * 20000))
          else none
      | none => none }

/-- The claim's closed form, amended in exactly one place: the buffer-time
formula uses the clamped factor `max(1, f)` (the same clamping the claim
already applies in the `Fs` formula), as the code does. -/
def feasClaimAmended (inp : FeasInputs) : FeasOutputs :=
  { feasClaimLiteral inp with
    buffer_time_s :=
      let bytes_per_sample : ℤ :=
        if inp.Bv_list = [] then 2 * inp.V else inp.Bv_list.sum
      match inp.sda_bytes with
      | some s =>
          if s ≠ 0 ∧ 0 < bytes_per_sample then
            some ((s : ℚ) * ((max 1 inp.f : ℤ) : ℚ) / ((bytes_per_sample : ℚ) * 20000))
          else none
      | none => none }

/-- The tier correspondence named by the spec: `GREEN ↔ green`,
`AMBER ↔ orange`, `RED ↔ red`. -/
def tierMatch : Badge → Color → Bool
  | .GREEN, .green => true
  | .AMBER, .orange => true
  | .RED, .red => true
  | _, _ => false

/-- Severity rank of a badge: `GREEN < AMBER < RED`. -/
def badgeNat : Badge → ℕ
  | .GREEN => 0
  | .AMBER => 1
  | .RED => 2

/-! ## `estimate_total_time_ms`, `motor_logger_tk.py` (lines 45-54) -/

/-- `estimate_total_time_ms(factor, num_vars=5)` of `motor_logger_tk.py`:
`base = 24.0; step = 24.5; return base + step * (factor - 1)`. -/
def estimate_total_time_ms (factor : ℤ) (_num_vars : ℤ) : ℚ :=
  let base : ℚ := 24
  let step : ℚ := 49/2
  base + step * ((factor : ℚ) - 1)

/-! ## Monitored scope-channel paths of each variant

Each file hard-codes the table of monitored variables: `VAR_PATHS` in
`MotorLogger.py` (lines 62-68), `tkinter-best.py` (75-81), `NewVersion.py`
(64-70), `motor_logger_tk.py` (36-42) and `ResolverEncoderApp.py` (28-33);
`MONITOR_VARS` in `Forced10secs.py` (77-83) and `MotorLogger4.py` (31-37);
and the `defaults` list in `motor_logger_gui.py` (310-316).  Dicts/pair
lists are modelled as key-value pair lists in source order. -/

def fiveMotorPaths : List String :=
  ["motor.idqCmd.q", "motor.idq.q", "motor.idq.d",
   "motor.omegaElectrical", "motor.omegaCmd"]

def VAR_PATHS_MotorLogger : List (String × String) :=
  [("idqCmd_q", "motor.idqCmd.q"), ("Idq_q", "motor.idq.q"),
   ("Idq_d", "motor.idq.d"), ("OmegaElectrical", "motor.omegaElectrical"),
   ("OmegaCmd", "motor.omegaCmd")]

def VAR_PATHS_tkinter_best : List (String × String) :=
  [("idqCmd_q", "motor.idqCmd.q"), ("Idq_q", "motor.idq.q"),
   ("Idq_d", "motor.idq.d"), ("OmegaElectrical", "motor.omegaElectrical"),
   ("OmegaCmd", "motor.omegaCmd")]

def VAR_PATHS_NewVersion : List (String × String) :=
  [("idqCmd_q", "motor.idqCmd.q"), ("Idq_q", "motor.idq.q"),
   ("Idq_d", "motor.idq.d"), ("OmegaElectrical", "motor.omegaElectrical"),
   ("OmegaCmd", "motor.omegaCmd")]

def MONITOR_VARS_Forced10secs : List (String × String) :=
  [("idqCmd_q", "motor.idqCmd.q"), ("Idq_q", "motor.idq.q"),
   ("Idq_d", "motor.idq.d"), ("OmegaElectrical", "motor.omegaElectrical"),
   ("OmegaCmd", "motor.omegaCmd")]

def MONITOR_VARS_MotorLogger4 : List (String × String) :=
  [("idqCmd_q", "motor.idqCmd.q"), ("Idq_q", "motor.idq.q"),
   ("Idq_d", "motor.idq.d"), ("OmegaElectrical", "motor.omegaElectrical"),
   ("OmegaCmd", "motor.omegaCmd")]

def VAR_PATHS_motor_logger_tk : List String :=
  ["motor.idqCmd.q", "motor.idq.q", "motor.idq.d",
   "motor.omegaElectrical", "motor.omegaCmd"]

def defaults_motor_logger_gui : List String :=
  ["motor.idqCmd.q", "motor.idq.q", "motor.idq.d",
   "motor.omegaElectrical", "motor.omegaCmd"]

def VAR_PATHS_ResolverEncoderApp : List (String × String) :=
  [("rawAngle", "resolver.rawAngle"),
   ("convertedAngle", "resolver.convertedAngle"),
   ("offset", "resolver.offset"),
   ("status", "resolver.status")]

/-! ## `_start_capture` interval guard, `MotorLogger.py` (lines 326-371) and
`NewVersion.py` (lines 367-415)

Both handlers validate the text-field inputs, check the connection, check the
variable selection, and — when `enforce_limit` holds — reject sample
intervals below `MIN_DELAY_MS = 1` ms *before* resetting `self.data`,
writing the velocity command (`cmd_var.set_value(int(round(rpm/scale)))`)
and starting the capture thread.  (The per-channel `scale_factors` table is
refreshed before the guard in both files; it is not part of the claim's
effects and is not tracked.)  The tracked effects are exactly the three the
claim names. -/

def MIN_DELAY_MS : ℚ := 1

/-- How a start request terminates. -/
inductive StartOutcome where
  | invalidInput | notConnected | noVariables | intervalRejected | started
deriving Repr, DecidableEq

/-- The externally visible effects of a start request. -/
structure StartEffects where
  bufferReset : Bool
  velocityWritten : Option ℤ
  threadStarted : Bool
deriving Repr, DecidableEq

/-- The empty effect record: buffer untouched, nothing written, no thread. -/
def noStartEffects : StartEffects :=
  { bufferReset := false, velocityWritten := none, threadStarted := false }

/-- `MotorLoggerGUI._start_capture` of `MotorLogger.py` (lines 326-371),
restricted to its decision structure and tracked effects. -/
def start_capture_MotorLogger (rpm scale dur dt_ms : ℚ) (connected : Bool)
    (selected_vars : List String) (enforce_limit : Bool) :
    StartOutcome × StartEffects :=
  if rpm < 0 ∨ scale ≤ 0 ∨ dur ≤ 0 ∨ dt_ms ≤ 0 then (.invalidInput, noStartEffects)
  else if ¬connected then (.notConnected, noStartEffects)
  else if selected_vars = [] then (.noVariables, noStartEffects)
  else if enforce_limit ∧ dt_ms < MIN_DELAY_MS then (.intervalRejected, noStartEffects)
  else (.started,
    { bufferReset := true
      velocityWritten := some (pyRound (rpm / scale))
      threadStarted := true })

/-- `MotorLoggerGUI._start_capture` of `NewVersion.py` (lines 367-415); the
decision structure and tracked effects coincide with `MotorLogger.py`
(the two files differ only in untracked statements). -/
def start_capture_NewVersion (rpm scale dur dt_ms : ℚ) (connected : Bool)
    (selected_vars : List String) (enforce_limit : Bool) :
    StartOutcome × StartEffects :=
  if rpm < 0 ∨ scale ≤ 0 ∨ dur ≤ 0 ∨ dt_ms ≤ 0 then (.invalidInput, noStartEffects)
  else if ¬connected then (.notConnected, noStartEffects)
  else if selected_vars = [] then (.noVariables, noStartEffects)
  else if enforce_limit ∧ dt_ms < MIN_DELAY_MS then (.intervalRejected, noStartEffects)
  else (.started,
    { bufferReset := true
      velocityWritten := some (pyRound (rpm / scale))
      threadStarted := true })

/-! ## API-version guard helpers, `Forced10secs.py` (lines 103-147)

`try_write` (103-117), `try_clear_channels` (119-126) and
`get_total_ms_via_api` (128-147) probe the vendor SDK with `hasattr` and
`try/except`.  The SDK surface they can observe is modelled by `WriteHandle`
and `ScopeApi`: for each method, whether it exists and what a call to it
does (returns normally or raises).  Raising is a data outcome here, so each
helper is a total Lean function by construction — exception propagation
would appear as a missing case. -/

/-- Outcome of calling `get_scope_sample_time(time_us)` with an argument. -/
inductive GstArgOutcome where
  | ok (v : ℚ)
  | typeError
  | raises
deriving Repr, DecidableEq

/-- Outcome of the zero-argument fallback `get_scope_sample_time()`:
a numeric return, a non-numeric return, or an exception. -/
inductive GstNoargOutcome where
  | okNum (v : ℚ)
  | okOther
  | raises
deriving Repr, DecidableEq

/-- The surface of a variable handle seen by `try_write`: does
`handle.set_value` exist, and does calling it return normally. -/
structure WriteHandle where
  has_set_value : Bool
  set_value_ok : Bool
deriving Repr, DecidableEq

/-- The surface of the scope object seen by the three guard helpers.  The
clear-channel indices follow the order the source tries the names:
`0 = clear_all_scope_channel`, `1 = clear_scope_channels`,
`2 = clear_scope_channel`. -/
structure ScopeApi where
  has_write : Bool
  write_ok : Bool
  clear_present : Fin 3 → Bool
  clear_ok : Fin 3 → Bool
  has_gst : Bool
  gst_arg : GstArgOutcome
  gst_noarg : GstNoargOutcome

/-- `try_write` of `Forced10secs.py`: try `handle.set_value` (returning
`True` on success, swallowing a raise), then `scope.write` likewise, else
`False`. -/
def try_write (s : ScopeApi) (h : WriteHandle) : Bool :=
  if h.has_set_value ∧ h.set_value_ok then true
  else if s.has_write ∧ s.write_ok then true
  else false

/-- The loop body of `try_clear_channels`: walk the candidate names,
invoke each existing one, stop at the first that returns normally,
swallow raises and continue.  Returns the list of invoked names. -/
def try_clear_go (s : ScopeApi) : List (Fin 3) → List (Fin 3)
  | [] => []
  | n :: rest =>
      if s.clear_present n then
        if s.clear_ok n then [n] else n :: try_clear_go s rest
      else try_clear_go s rest

/-- `try_clear_channels` of `Forced10secs.py`: the three vendor names in
source order. -/
def try_clear_channels (s : ScopeApi) : List (Fin 3) :=
  try_clear_go s [0, 1, 2]

/-- `get_total_ms_via_api` of `Forced10secs.py`: call
`get_scope_sample_time(time_us)`; on `TypeError` retry the zero-argument
variant and trust a numeric return `> 1.0`; on any other failure, or when
the method is absent, return `0.0`. -/
def get_total_ms_via_api (s : ScopeApi) : ℚ :=
  if s.has_gst then
    match s.gst_arg with
    | .ok v => v
    | .typeError =>
        match s.gst_noarg with
        | .okNum r => if 1 < r then r else 0
        | .okOther => 0
        | .raises => 0
    | .raises => 0
  else 0

/-! ## Event traces

The capture workers are threads interleaving vendor-SDK calls and
control-flag writes.  They are modelled as generators of event traces,
parameterised over the outcomes the environment chooses (poll results, the
timing of the GUI thread's stop requests, the loop iteration count).  The
four control variables (`app.hardwareUiEnabled`,
`motor.apiData.velocityReference`, `motor.apiData.runMotorRequest`,
`motor.apiData.stopMotorRequest`) are the same symbols in every variant. -/

/-- The control variables written by the loggers. -/
inductive CtrlVar where
  | hwui | vel | run | stop
deriving Repr, DecidableEq

/-- The ELF symbol of each control variable. -/
def CtrlVar.path : CtrlVar → String
  | .hwui => "app.hardwareUiEnabled"
  | .vel => "motor.apiData.velocityReference"
  | .run => "motor.apiData.runMotorRequest"
  | .stop => "motor.apiData.stopMotorRequest"

/-- One observable action of a logger session. -/
inductive Ev where
  | connect
  | importVars
  | getVar (path : String)
  | clearChannels
  | addChannel (path : String)
  | setSampleTime (f : ℤ)
  | writeFlag (v : CtrlVar) (x : ℤ)
  | requestData
  | readyCheck (r : Bool)
  | readData
  | getSampleTimeQuery
deriving Repr, DecidableEq

/-! ### One-shot RUN/STOP, `Forced10secs.py` `CaptureWorker` (lines 152-320)

The worker guards its control writes with `_run_sent` / `_stop_sent`;
`stop_early` (lines 185-191) can fire from the GUI thread any number of
times at any point.  The state machine below follows the worker's control
path: baseline wait (stop-early possible), the one-shot RUN block (lines
230-236), the capture loop (stop-early possible; no control writes), the
one-shot STOP block (lines 267-273), the tail (stop-early possible), and the
`finally` safety STOP (lines 313-320).  `abort` models an exception jumping
to `finally` before the STOP block. -/

structure ForcedCapSt where
  run_sent : Bool
  stop_sent : Bool
  stop_flag : Bool
  events : List Ev
deriving Repr, DecidableEq

/-- `CaptureWorker.stop_early`. -/
def forcedStopEarly (s : ForcedCapSt) : ForcedCapSt :=
  { s with
    events := if s.stop_sent then s.events
              else s.events ++ [Ev.writeFlag .stop 1]
    stop_sent := true
    stop_flag := true }

/-- `n` successive `stop_early` calls. -/
def forcedStopEarlyN : ℕ → ForcedCapSt → ForcedCapSt
  | 0, s => s
  | n + 1, s => forcedStopEarlyN n (forcedStopEarly s)

/-- The one-shot RUN block of `CaptureWorker.run`. -/
def forcedRunStep (s : ForcedCapSt) : ForcedCapSt :=
  if ¬s.stop_flag ∧ ¬s.run_sent then
    { s with events := s.events ++ [Ev.writeFlag .run 1], run_sent := true }
  else s

/-- The one-shot STOP block of `CaptureWorker.run`. -/
def forcedStopStep (s : ForcedCapSt) : ForcedCapSt :=
  if ¬s.stop_sent then
    { s with events := s.events ++ [Ev.writeFlag .stop 1], stop_sent := true }
  else s

/-- The `finally` safety: STOP once more only if RUN went out un-stopped. -/
def forcedFinallyStep (s : ForcedCapSt) : ForcedCapSt :=
  if s.run_sent ∧ ¬s.stop_sent then
    { s with events := s.events ++ [Ev.writeFlag .stop 1] }
  else s

/-- A whole capture of `Forced10secs.py`: `e₁`/`e₂`/`e₃` are the stop-early
presses during baseline / capture loop / tail, `abort` an exception jumping
to `finally` before the STOP block. -/
def forcedCapture (e₁ e₂ e₃ : ℕ) (abort : Bool) : ForcedCapSt :=
  let s1 := forcedStopEarlyN e₁ ⟨false, false, false, []⟩
  let s2 := forcedRunStep s1
  let s3 := forcedStopEarlyN e₂ s2
  if abort then forcedFinallyStep s3
  else forcedFinallyStep (forcedStopEarlyN e₃ (forcedStopStep s3))

/-- The flag-count invariant tying the event list to the `_sent` guards. -/
def flagCountInv (s : ForcedCapSt) : Prop :=
  s.events.count (Ev.writeFlag .run 1) ≤ (if s.run_sent then 1 else 0) ∧
  s.events.count (Ev.writeFlag .stop 1) ≤ (if s.stop_sent then 1 else 0)

/-! ### One-shot RUN/STOP, `MotorLogger.py` `_worker` (lines 375-441)

The loop writes RUN=1 / STOP=1 once, guarded by `run_sent` / `stop_sent`;
each iteration's environment is `(pastRun, pastStop, ready)`: whether
`now >= run_cmd_time`, whether `now >= stop_cmd_time`, and the poll
outcome. -/

def mlLoop : List (Bool × Bool × Bool) → Bool → Bool → List Ev
  | [], _, _ => []
  | (pr, ps, rdy) :: rest, run_sent, stop_sent =>
      (if ¬run_sent ∧ pr then [Ev.writeFlag .run 1] else [])
      ++ (if ¬stop_sent ∧ ps then [Ev.writeFlag .stop 1] else [])
      ++ (if rdy then [Ev.readyCheck true, Ev.readData, Ev.requestData]
          else [Ev.readyCheck false])
      ++ mlLoop rest (run_sent || pr) (stop_sent || ps)

/-- A whole session of `MotorLogger.py` as a linear event trace: `_connect`
(lines 291-315: connect, handle resolution, `hwui.set_value(0)`),
`_start_capture` (line 362: the velocity write), then `_worker` (line 382:
`stop_var.set_value(0)`; `prepare_scope`, lines 111-125: clear channels, add
channels, `set_sample_time`, `request_scope_data`; then the poll loop). -/
def motorLoggerSessionTrace (sampleMs counts : ℤ) (selPaths : List String)
    (iters : List (Bool × Bool × Bool)) : List Ev :=
  [Ev.connect, Ev.importVars]
  ++ ([CtrlVar.hwui.path, CtrlVar.vel.path,
       "motor.apiData.velocityMeasured", CtrlVar.run.path,
       CtrlVar.stop.path].map Ev.getVar)
  ++ (VAR_PATHS_MotorLogger.map (fun p => Ev.getVar p.2))
  ++ [Ev.writeFlag .hwui 0]
  ++ [Ev.writeFlag .vel counts]
  ++ [Ev.writeFlag .stop 0]
  ++ [Ev.clearChannels]
  ++ selPaths.map Ev.addChannel
  ++ [Ev.setSampleTime sampleMs, Ev.requestData]
  ++ mlLoop iters false false

/-! ### Hardened RUN/STOP, `tkinter-best.py` (lines 485-497, 629-786)

`_write_var_safe(var, value, repeats, ...)` retries the write `repeats`
times (looping over the known setter names each round; with a handle that
exposes exactly one working setter, each round performs one write).  The
happy-path control writes of one capture (`_start_capture` line 594 and
`_capture_worker`): velocity twice, baseline RUN=0/STOP=0 twice each, RUN=1
twice, `k` periodic 200 ms reasserts of RUN=1, STOP=1 twice then RUN=0 twice
at stop time, cleanup RUN=0 twice and STOP=1 once, and the `finally`
deasserts RUN=0/STOP=0 twice each. -/

def writeVarSafe (v : CtrlVar) (x : ℤ) (repeats : ℕ) : List Ev :=
  List.replicate repeats (Ev.writeFlag v x)

def tkinterBestControlWrites (counts : ℤ) (k : ℕ) : List Ev :=
  writeVarSafe .vel counts 2
  ++ writeVarSafe .run 0 2 ++ writeVarSafe .stop 0 2
  ++ writeVarSafe .run 1 2
  ++ (List.range k).flatMap (fun _ => writeVarSafe .run 1 1)
  ++ writeVarSafe .stop 1 2 ++ writeVarSafe .run 0 2
  ++ writeVarSafe .run 0 2 ++ writeVarSafe .stop 1 1
  ++ writeVarSafe .run 0 2 ++ writeVarSafe .stop 0 2

/-! ### Linear SDK-call order (C4)

Full session traces of the batch variants.  The polling loops are
parameterised over the poll outcomes the device produces: a `true` poll is
followed by a read and a re-arm (`request_scope_data`), exactly as in the
sources. -/

/-- One iteration of the poll/read/re-arm loop. -/
def pollBlock (b : Bool) : List Ev :=
  if b then [Ev.readyCheck true, Ev.readData, Ev.requestData]
  else [Ev.readyCheck false]

def pollLoop (polls : List Bool) : List Ev :=
  polls.flatMap pollBlock

/-- `CONTROL_VARS` of `MotorLogger4.py` (lines 39-44), values only. -/
def CONTROL_VAR_PATHS_MotorLogger4 : List String :=
  ["app.hardwareUiEnabled", "motor.apiData.velocityReference",
   "motor.apiData.runMotorRequest", "motor.apiData.stopMotorRequest"]

/-- `run_motor_logger` of `MotorLogger4.py` (lines 92-213) as a linear
trace: construct the scope, import variables, resolve the monitor and
control handles, write `hardwareUiEnabled = 0` and the velocity counts,
clear and add channels, `set_sample_time(1)`, arm, RUN=1, the 10-second
poll loop, STOP=1, one final poll-and-read, then
`get_scope_sample_time()`. -/
def motorLogger4Trace (counts : ℤ) (polls : List Bool) (tailReady : Bool) :
    List Ev :=
  [Ev.connect, Ev.importVars]
  ++ (MONITOR_VARS_MotorLogger4.map (fun p => Ev.getVar p.2))
  ++ (CONTROL_VAR_PATHS_MotorLogger4.map Ev.getVar)
  ++ [Ev.writeFlag .hwui 0, Ev.writeFlag .vel counts]
  ++ [Ev.clearChannels]
  ++ (MONITOR_VARS_MotorLogger4.map (fun p => Ev.addChannel p.2))
  ++ [Ev.setSampleTime 1, Ev.requestData]
  ++ [Ev.writeFlag .run 1]
  ++ pollLoop polls
  ++ [Ev.writeFlag .stop 1]
  ++ pollBlock tailReady
  ++ [Ev.getSampleTimeQuery]

/-- A session of `Forced10secs.py` as a linear trace: `connect` (lines
465-503: construct, import, resolve handles, `hardwareUiEnabled = 0`,
`set_sample_time(450)`), then `CaptureWorker.run` (lines 196-307: clear and
add channels, `set_sample_time(450)` again, the velocity write, arm, RUN=1,
the poll loop, STOP=1, the tail read, and the `get_scope_sample_time`
cross-check). -/
def forcedSessionTrace (counts : ℤ) (polls : List Bool) (tailReady : Bool) :
    List Ev :=
  [Ev.connect, Ev.importVars]
  ++ (MONITOR_VARS_Forced10secs.map (fun p => Ev.getVar p.2))
  ++ ([CtrlVar.hwui.path, CtrlVar.vel.path, CtrlVar.run.path,
       CtrlVar.stop.path].map Ev.getVar)
  ++ [Ev.writeFlag .hwui 0, Ev.setSampleTime 450]
  ++ [Ev.clearChannels]
  ++ (MONITOR_VARS_Forced10secs.map (fun p => Ev.addChannel p.2))
  ++ [Ev.setSampleTime 450]
  ++ [Ev.writeFlag .vel counts]
  ++ [Ev.requestData]
  ++ [Ev.writeFlag .run 1]
  ++ pollLoop polls
  ++ [Ev.writeFlag .stop 1]
  ++ pollBlock tailReady
  ++ [Ev.getSampleTimeQuery]

/-- The protocol phase of an event: `0` connection/resolution, `1` channel
configuration and decimation, `2` arm/poll/read; control-flag writes and the
final sample-time query have no phase. -/
def evPhase : Ev → Option ℕ
  | .connect => some 0
  | .importVars => some 0
  | .getVar _ => some 0
  | .clearChannels => some 1
  | .addChannel _ => some 1
  | .setSampleTime _ => some 1
  | .requestData => some 2
  | .readyCheck _ => some 2
  | .readData => some 2
  | .writeFlag _ _ => none
  | .getSampleTimeQuery => none

/-- Phased events appear in non-decreasing phase order. -/
def phasesMonotone : List Ev → ℕ → Bool
  | [], _ => true
  | e :: r, cur =>
      match evPhase e with
      | none => phasesMonotone r cur
      | some p => decide (cur ≤ p) && phasesMonotone r p

/-- Every channel-data read happens with the scope armed (a
`request_scope_data` strictly before it). -/
def readsArmed : List Ev → Bool → Bool
  | [], _ => true
  | .requestData :: r, _ => readsArmed r true
  | .readData :: r, armed => armed && readsArmed r armed
  | _ :: r, armed => readsArmed r armed

/-- The decimation factor is never set once a read has happened. -/
def noSampleAfterRead : List Ev → Bool → Bool
  | [], _ => true
  | .readData :: r, _ => noSampleAfterRead r true
  | .setSampleTime _ :: r, seen => !seen && noSampleAfterRead r seen
  | _ :: r, seen => noSampleAfterRead r seen

/-- The claim's order discipline over one session trace. -/
def sdkOrderOk (tr : List Ev) : Bool :=
  phasesMonotone tr 0 && readsArmed tr false && noSampleAfterRead tr false

/-! ### Capture buffers (C5)

The in-memory buffers handed to plotting and export after a completed
capture: `Forced10secs.py` lines 249-257/282-297, `tkinter-best.py` lines
739-767, `MotorLogger.py` lines 409-432 (`_worker`) and 443-453
(`_worker_done`). -/

/-- Python's `min(<lengths>, default=0)`. -/
def minLen (ls : List (List ℚ)) : ℕ :=
  match ls.map List.length with
  | [] => 0
  | x :: xs => xs.foldl min x

/-- `TS_S` of `Forced10secs.py` (line 66): `450 * 50 µs = 22.5 ms`. -/
def TS_S : ℚ := (450 * 50) / 1000000

/-- One ready chunk of `Forced10secs.py`'s `CaptureWorker.run` (lines
249-257, repeated at 282-289): `seq = list(chunk.values())`,
`m = min(len(v) for v in seq)`, and when `m > 0` each variable column `i <
len(seq)` gains `seq[i][:m]`. -/
def forcedProcessChunk (data chunk : List (List ℚ)) : List (List ℚ) :=
  let m := minLen chunk
  if 0 < m then
    data.mapIdx (fun i col =>
      if i < chunk.length then col ++ (chunk.getD i []).take m else col)
  else data

/-- The finalisation of `CaptureWorker.run` (lines 293-297): truncate every
column to the shortest (`n_min`) and build `t_axis = [i * TS_S]`. -/
def forcedFinalize (data : List (List ℚ)) : List ℚ × List (List ℚ) :=
  let n := minLen data
  ((List.range n).map (fun (i : ℕ) => (i : ℚ) * TS_S),
   data.map (fun col => col.take n))

/-- A completed `Forced10secs.py` capture over an arbitrary chunk schedule:
the five (empty-initialised) columns accumulated, then finalised. -/
def forcedCaptureBuffer (chunks : List (List (List ℚ))) :
    List ℚ × List (List ℚ) :=
  forcedFinalize (chunks.foldl forcedProcessChunk (List.replicate 5 []))

/-- `PATH_TO_KEY` of `tkinter-best.py` (line 82). -/
def pathToKey_tkinter (p : String) : Option String :=
  (VAR_PATHS_tkinter_best.find? (fun kv => kv.2 == p)).map Prod.fst

/-- The read-and-finalise tail of `_capture_worker` in `tkinter-best.py`
(lines 739-767): `None` when the read returns nothing; otherwise clip every
channel to the shortest length `Nmin`, build `t = [i / Fs]` and the
`MotorRunning` window flags, and scale each selected channel. -/
def tkFinalize (Fs PRE_START duration_s : ℚ) (selected : List String)
    (scaleOf : String → ℚ) (raw : List (String × List ℚ)) :
    Option (List ℚ × List ℤ × List (String × List ℚ)) :=
  match raw with
  | [] => none
  | _ =>
      let Nmin := minLen (raw.map Prod.snd)
      let tvec := (List.range Nmin).map (fun (i : ℕ) => (i : ℚ) / Fs)
      let motorRunning := tvec.map (fun tt =>
        if PRE_START ≤ tt ∧ tt < PRE_START + duration_s then (1 : ℤ) else 0)
      let cols := raw.filterMap (fun cv =>
        match pathToKey_tkinter cv.1 with
        | some key =>
            if key ∈ selected then
              some (key, (cv.2.take Nmin).map (fun v => v * scaleOf key))
            else none
        | none => none)
      some (tvec, motorRunning, cols)

/-- `PATH_TO_KEY` of `MotorLogger.py` (line 71). -/
def pathToKey_MotorLogger (p : String) : Option String :=
  (VAR_PATHS_MotorLogger.find? (fun kv => kv.2 == p)).map Prod.fst

/-- The worker's accumulated buffer of `MotorLogger.py`: the dict
`self.data`, with the time and `MotorRunning` columns explicit and the
per-variable columns as a map from key to column. -/
structure MLBuf where
  t : List ℚ
  motorRunning : List ℤ
  cols : String → List ℚ

/-- The per-channel column update of `_worker` (lines 425-432): skip empty
value lists and unknown paths, and extend the matching key's column with the
scaled values.  (Values for known-but-unselected keys raise `KeyError` in
Python; the model extends the total column map instead, which is immaterial
to the claims, all about selected columns.) -/
def mlUpd (scaleOf : String → ℚ) (acc : String → List ℚ)
    (cv : String × List ℚ) : String → List ℚ :=
  if cv.2 = [] then acc
  else
    match pathToKey_MotorLogger cv.1 with
    | some key => fun k =>
        if k = key then acc k ++ cv.2.map (fun v => v * scaleOf key)
        else acc k
    | none => acc

/-- One ready chunk of `MotorLogger.py`'s `_worker` (lines 409-432): `n` is
the first channel's length (the code comments `all lists are equal` but does
not check it); `t` gains `(sample_idx + i) * ts` (where `sample_idx` always
equals the current length of `t`), `MotorRunning` gains `n` flags, and each
channel gains all its scaled values via `mlUpd` — with *no* truncation
to `n`. -/
def mlProcessChunk (ts : ℚ) (scaleOf : String → ℚ) (buf : MLBuf)
    (chunk : Bool × List (String × List ℚ)) : MLBuf :=
  match chunk.2 with
  | [] => buf
  | c0 :: _ =>
      let n := c0.2.length
      { t := buf.t ++ (List.range n).map
          (fun i => ((buf.t.length + i : ℕ) : ℚ) * ts)
        motorRunning := buf.motorRunning ++
          List.replicate n (if chunk.1 then (1 : ℤ) else 0)
        cols := chunk.2.foldl (mlUpd scaleOf) buf.cols }

/-- `_worker_done` of `MotorLogger.py` (lines 443-453): when any time
samples exist, every non-`t` column is clipped to `t`'s length (a Python
slice `[:t_len]`, which never lengthens a short column). -/
def mlWorkerDone (selected : List String) (buf : MLBuf) : MLBuf :=
  if buf.t = [] then buf
  else
    { t := buf.t
      motorRunning := buf.motorRunning.take buf.t.length
      cols := fun k =>
        if k ∈ selected then (buf.cols k).take buf.t.length else buf.cols k }

/-- A completed `MotorLogger.py` capture: the chunks accumulated from the
empty buffer (`self.data = {k: [] for k in selected}`), then `_worker_done`.
Each chunk carries its `MotorRunning` window flag and the channel dict. -/
def mlCaptureBuffer (ts : ℚ) (scaleOf : String → ℚ)
    (selected : List String)
    (chunks : List (Bool × List (String × List ℚ))) : MLBuf :=
  mlWorkerDone selected
    (chunks.foldl (mlProcessChunk ts scaleOf) ⟨[], [], fun _ => []⟩)

/-- A chunk delivering equal-length value lists covering exactly the
selected keys (the rectangularity the `MotorLogger.py` code assumes of the
SDK but does not check). -/
def chunkAligned (selected : List String)
    (c : Bool × List (String × List ℚ)) : Prop :=
  c.2.map (fun cv => pathToKey_MotorLogger cv.1) = selected.map some ∧
  ∀ cv ∈ c.2, cv.2.length = (c.2.headD ("", [])).2.length

instance (selected : List String) (c : Bool × List (String × List ℚ)) :
    Decidable (chunkAligned selected c) := by
  unfold chunkAligned; infer_instance

/-! ## Theorems -/

/-- C1 counterexample: at `f = 0` (with `sda_bytes = 100`, `Bv_list = [2]`)
the claim's literal buffer-time formula `sda_bytes * f / (bytes_per_sample *
20000)` gives `0`, but `compute_feas` uses the clamped factor `max(1, f)` and
returns `1/400`, so the claim as stated is false at this input. -/
theorem compute_feas_literal_claim_false :
    compute_feas ⟨1, [2], 0, 115200, 1, some 100⟩ ≠
      feasClaimLiteral ⟨1, [2], 0, 115200, 1, some 100⟩ := by
  intro h
  have h2 := congrArg FeasOutputs.buffer_time_s h
  norm_num [compute_feas, feasClaimLiteral, PWM_HZ] at h2

/-- C1 (amended): `compute_feas` returns exactly the claim's closed-form
arithmetic, with the buffer-time formula reading `sda_bytes * max(1, f) /
(bytes_per_sample * 20000)` — the clamped factor, as in the `Fs` formula.
It is a pure function of the inputs (a Lean `def` with no state). -/
theorem compute_feas_closed_form (inp : FeasInputs) :
    compute_feas inp = feasClaimAmended inp := by
  cases hB : inp.Bv_list <;> cases hS : inp.sda_bytes <;>
    simp [compute_feas, feasClaimLiteral, feasClaimAmended, PWM_HZ, hB, hS]

/-- Helper: away from the boundary ratios `0.4` and `0.7`, the badge of
`tkinter-best.py` and the colour of `motor_logger_gui.py` name the same tier. -/
theorem badge_color_agree (r : ℚ) (h4 : r ≠ 2/5) (h7 : r ≠ 7/10) :
    tierMatch (badge_from_ratio r)
      (if 7/10 < r then Color.red else if 2/5 < r then Color.orange else Color.green) =
      true := by
  rcases lt_trichotomy r (2/5) with h | h | h
  · rw [badge_from_ratio, if_pos h, if_neg (by linarith), if_neg (by linarith)]
    rfl
  · exact absurd h h4
  · rcases lt_trichotomy r (7/10) with h' | h' | h'
    · rw [badge_from_ratio, if_neg (by linarith), if_pos h', if_neg (by linarith),
        if_pos h]
      rfl
    · exact absurd h' h7
    · rw [badge_from_ratio, if_neg (by linarith), if_neg (by linarith), if_pos h']
      rfl

/-- Helper: the badge is a monotone function of the ratio. -/
theorem badgeNat_mono {r r' : ℚ} (h : r ≤ r') :
    badgeNat (badge_from_ratio r) ≤ badgeNat (badge_from_ratio r') := by
  unfold badge_from_ratio
  split_ifs <;> simp [badgeNat] <;> linarith

/-- C2 counterexample: with the shared input `Bv = [1]`, `f = 50`,
`baud = 10000` (all within the claim's range) both functions compute the
load ratio `0.4`, yet `compute_feas` reports `AMBER` (`r < 0.4` is false)
while `compute_feasibility` reports `green` (`0.4 > 0.4` is false), so the
tiers disagree and the claim as stated is false at this input. -/
theorem feas_variants_tier_mismatch :
    (compute_feas ⟨1, [1], 50, 10000, 1, none⟩).uart_ratio =
      (compute_feasibility 1 [1] 50 10000 1 none).load_ratio ∧
    (compute_feas ⟨1, [1], 50, 10000, 1, none⟩).uart_badge = Badge.AMBER ∧
    (compute_feasibility 1 [1] 50 10000 1 none).color = Color.green ∧
    tierMatch Badge.AMBER Color.green = false := by
  have hmax : (max 1 50 : ℤ) = 50 := max_eq_right (by norm_num)
  have hmax2 : max (1 : ℚ) (10000 / 10) = 10000 / 10 := max_eq_right (by norm_num)
  refine ⟨?_, ?_, ?_, rfl⟩ <;>
    norm_num [compute_feas, compute_feasibility, badge_from_ratio, PWM_HZ, LOOP_HZ,
      hmax, hmax2]

/-- C2 (amended): for every shared input with a non-empty byte-width list,
`f ≥ 1` and `baud ≥ 10`, the two feasibility functions compute equal `Fs`,
bytes per sample, payload, UART capacity and load ratio, and they assign the
same risk tier at every ratio value other than the two tier boundaries `0.4`
and `0.7` (where `compute_feas` reports the more severe tier). -/
theorem feas_variants_agree (V nv f baud : ℤ) (Bv : List ℤ) (dur : ℚ)
    (sda : Option ℤ) (hB : Bv ≠ []) (hf : 1 ≤ f) (hbaud : 10 ≤ baud)
    (h4 : (compute_feas ⟨V, Bv, f, baud, dur, sda⟩).uart_ratio ≠ 2/5)
    (h7 : (compute_feas ⟨V, Bv, f, baud, dur, sda⟩).uart_ratio ≠ 7/10) :
    (compute_feas ⟨V, Bv, f, baud, dur, sda⟩).Fs =
        (compute_feasibility nv Bv f baud dur sda).Fs ∧
    (compute_feas ⟨V, Bv, f, baud, dur, sda⟩).bytes_per_sample = Bv.sum ∧
    (compute_feas ⟨V, Bv, f, baud, dur, sda⟩).payload_Bps =
        (compute_feasibility nv Bv f baud dur sda).uart_bytes_per_sec ∧
    (compute_feas ⟨V, Bv, f, baud, dur, sda⟩).uart_capacity_Bps =
        (compute_feasibility nv Bv f baud dur sda).uart_capacity ∧
    (compute_feas ⟨V, Bv, f, baud, dur, sda⟩).uart_ratio =
        (compute_feasibility nv Bv f baud dur sda).load_ratio ∧
    tierMatch (compute_feas ⟨V, Bv, f, baud, dur, sda⟩).uart_badge
        (compute_feasibility nv Bv f baud dur sda).color = true := by
  have hmaxf : (max 1 f : ℤ) = f := max_eq_right hf
  have hcast : ((10 : ℤ) : ℚ) ≤ (baud : ℚ) := by exact_mod_cast hbaud
  have hcap1 : (1 : ℚ) ≤ (baud : ℚ) / 10 := by
    push_cast at hcast
    linarith
  have hcap : max (1 : ℚ) ((baud : ℚ) / 10) = (baud : ℚ) / 10 := max_eq_right hcap1
  have hcappos : (0 : ℚ) < (baud : ℚ) / 10 := lt_of_lt_of_le one_pos hcap1
  obtain ⟨b0, Bt, rfl⟩ : ∃ b0 Bt, Bv = b0 :: Bt := by
    cases Bv with
    | nil => exact absurd rfl hB
    | cons b0 Bt => exact ⟨b0, Bt, rfl⟩
  simp only [compute_feas, compute_feasibility, PWM_HZ, LOOP_HZ, hmaxf, hcap,
    if_pos hcappos] at h4 h7 ⊢
  refine ⟨trivial, trivial, trivial, trivial, trivial, ?_⟩
  exact badge_color_agree _ h4 h7

/-- C2 witness: the amended agreement at the concrete shared input
`Bv = [2,2]`, `f = 10`, `baud = 115200` (ratio `25/36`). -/
theorem feas_variants_agree_witness :
    (compute_feas ⟨1, [2, 2], 10, 115200, 1, none⟩).uart_ratio =
        (compute_feasibility 1 [2, 2] 10 115200 1 none).load_ratio ∧
    tierMatch (compute_feas ⟨1, [2, 2], 10, 115200, 1, none⟩).uart_badge
        (compute_feasibility 1 [2, 2] 10 115200 1 none).color = true := by
  have hmax : (max 1 10 : ℤ) = 10 := max_eq_right (by norm_num)
  have h := feas_variants_agree 1 1 10 115200 [2, 2] 1 none (by simp)
    (by norm_num) (by norm_num)
    (by norm_num [compute_feas, PWM_HZ, hmax, max_eq_right])
    (by norm_num [compute_feas, PWM_HZ, hmax, max_eq_right])
  exact ⟨h.2.2.2.2.1, h.2.2.2.2.2⟩

/-- Helper: the load-ratio expression is antitone in the (clamped) factor and
in the (clamped) capacity, for a non-negative payload byte count. -/
theorem uart_ratio_antitone (B x₁ x₂ c₁ c₂ : ℚ) (hB : 0 ≤ B) (hx : 1 ≤ x₁)
    (hxx : x₁ ≤ x₂) (hc : 1 ≤ c₁) (hcc : c₁ ≤ c₂) :
    B * (20000 / x₂) / c₂ ≤ B * (20000 / x₁) / c₁ := by
  have hx₁ : (0 : ℚ) < x₁ := by linarith
  have hc₁ : (0 : ℚ) < c₁ := by linarith
  gcongr

/-- Helper: the only badge of rank `0` is `GREEN`. -/
theorem badgeNat_eq_zero {b : Badge} (h : badgeNat b = 0) : b = Badge.GREEN := by
  cases b
  · rfl
  · simp [badgeNat] at h
  · simp [badgeNat] at h

/-- C8: the UART load ratio of `compute_feas` is non-increasing when the
decimation factor `f` grows or the baud rate grows (over `baud ≥ 10`), for a
fixed list of non-negative byte widths (and `V ≥ 0` for the empty-list
fallback); consequently the badge, ranked `GREEN < AMBER < RED`, never grows,
and in particular never moves away from `GREEN`. -/
theorem compute_feas_ratio_monotone (V f₁ f₂ baud₁ baud₂ : ℤ) (Bv : List ℤ)
    (dur : ℚ) (sda : Option ℤ) (hV : 0 ≤ V) (hBv : ∀ b ∈ Bv, 0 ≤ b)
    (hf : f₁ ≤ f₂) (hb : 10 ≤ baud₁) (hbb : baud₁ ≤ baud₂) :
    (compute_feas ⟨V, Bv, f₂, baud₂, dur, sda⟩).uart_ratio ≤
      (compute_feas ⟨V, Bv, f₁, baud₁, dur, sda⟩).uart_ratio ∧
    badgeNat (compute_feas ⟨V, Bv, f₂, baud₂, dur, sda⟩).uart_badge ≤
      badgeNat (compute_feas ⟨V, Bv, f₁, baud₁, dur, sda⟩).uart_badge ∧
    ((compute_feas ⟨V, Bv, f₁, baud₁, dur, sda⟩).uart_badge = Badge.GREEN →
      (compute_feas ⟨V, Bv, f₂, baud₂, dur, sda⟩).uart_badge = Badge.GREEN) := by
  have hf₁ : (1 : ℚ) ≤ ((max 1 f₁ : ℤ) : ℚ) := by exact_mod_cast le_max_left 1 f₁
  have hff : ((max 1 f₁ : ℤ) : ℚ) ≤ ((max 1 f₂ : ℤ) : ℚ) := by
    exact_mod_cast max_le_max le_rfl hf
  have hcap : (1 : ℚ) ≤ max 1 ((baud₁ : ℚ) / 10) := le_max_left _ _
  have hbbq : (baud₁ : ℚ) ≤ (baud₂ : ℚ) := by exact_mod_cast hbb
  have hcapm : max (1 : ℚ) ((baud₁ : ℚ) / 10) ≤ max 1 ((baud₂ : ℚ) / 10) := by
    apply max_le_max le_rfl
    linarith
  have hratio :
      (compute_feas ⟨V, Bv, f₂, baud₂, dur, sda⟩).uart_ratio ≤
        (compute_feas ⟨V, Bv, f₁, baud₁, dur, sda⟩).uart_ratio := by
    cases Bv with
    | nil =>
        have hB : (0 : ℚ) ≤ ((2 * V : ℤ) : ℚ) := by exact_mod_cast by linarith
        simp only [compute_feas, PWM_HZ]
        exact uart_ratio_antitone _ _ _ _ _ hB hf₁ hff hcap hcapm
    | cons b t =>
        have hB : (0 : ℚ) ≤ (((b :: t).sum : ℤ) : ℚ) := by
          exact_mod_cast List.sum_nonneg (by intro x hx; exact hBv x hx)
        simp only [compute_feas, PWM_HZ]
        exact uart_ratio_antitone _ _ _ _ _ hB hf₁ hff hcap hcapm
  have hbadge :
      badgeNat (compute_feas ⟨V, Bv, f₂, baud₂, dur, sda⟩).uart_badge ≤
        badgeNat (compute_feas ⟨V, Bv, f₁, baud₁, dur, sda⟩).uart_badge := by
    show badgeNat (badge_from_ratio _) ≤ badgeNat (badge_from_ratio _)
    exact badgeNat_mono hratio
  refine ⟨hratio, hbadge, ?_⟩
  intro hg
  apply badgeNat_eq_zero
  rw [hg] at hbadge
  simpa [badgeNat] using hbadge

/-- C8 witness: the monotonicity at `V = 5`, `Bv = [2,2]`, `f : 10 → 20`,
`baud : 115200 → 230400`. -/
theorem compute_feas_ratio_monotone_witness :
    (compute_feas ⟨5, [2, 2], 20, 230400, 1, none⟩).uart_ratio ≤
      (compute_feas ⟨5, [2, 2], 10, 115200, 1, none⟩).uart_ratio := by
  exact (compute_feas_ratio_monotone 5 10 20 115200 230400 [2, 2] 1 none
    (by norm_num) (by intro b hb; fin_cases hb <;> norm_num) (by norm_num)
    (by norm_num) (by norm_num)).1

/-- C7 counterexample: the `ResolverEncoderApp.py` variant does not monitor
the five motor paths at all — its channel table is four `resolver.*` paths —
so the claim that every variant monitors exactly the five motor paths is
false. -/
theorem resolver_variant_paths_differ :
    VAR_PATHS_ResolverEncoderApp.map Prod.snd ≠ fiveMotorPaths ∧
    "motor.idqCmd.q" ∉ VAR_PATHS_ResolverEncoderApp.map Prod.snd ∧
    "resolver.rawAngle" ∉ fiveMotorPaths := by
  refine ⟨?_, ?_, ?_⟩ <;> decide

/-- C7 (amended): every motor-logger variant (`MotorLogger.py`,
`tkinter-best.py`, `NewVersion.py`, `Forced10secs.py`, `MotorLogger4.py`,
`motor_logger_tk.py`, `motor_logger_gui.py`) monitors exactly the five paths
`motor.idqCmd.q`, `motor.idq.q`, `motor.idq.d`, `motor.omegaElectrical`,
`motor.omegaCmd`; the derived `ResolverEncoderApp.py` instead monitors the
four paths `resolver.rawAngle`, `resolver.convertedAngle`, `resolver.offset`,
`resolver.status`. -/
theorem monitored_paths_by_variant :
    VAR_PATHS_MotorLogger.map Prod.snd = fiveMotorPaths ∧
    VAR_PATHS_tkinter_best.map Prod.snd = fiveMotorPaths ∧
    VAR_PATHS_NewVersion.map Prod.snd = fiveMotorPaths ∧
    MONITOR_VARS_Forced10secs.map Prod.snd = fiveMotorPaths ∧
    MONITOR_VARS_MotorLogger4.map Prod.snd = fiveMotorPaths ∧
    VAR_PATHS_motor_logger_tk = fiveMotorPaths ∧
    defaults_motor_logger_gui = fiveMotorPaths ∧
    VAR_PATHS_ResolverEncoderApp.map Prod.snd =
      ["resolver.rawAngle", "resolver.convertedAngle", "resolver.offset",
       "resolver.status"] := by
  refine ⟨rfl, rfl, rfl, rfl, rfl, rfl, rfl, rfl⟩

/-- Helper: `try_clear_go` only invokes names that exist. -/
theorem try_clear_go_present (s : ScopeApi) (names : List (Fin 3)) :
    ∀ i ∈ try_clear_go s names, s.clear_present i = true := by
  induction names with
  | nil => simp [try_clear_go]
  | cons n rest ih =>
      intro i hi
      simp only [try_clear_go] at hi
      by_cases hp : s.clear_present n
      · rw [if_pos hp] at hi
        by_cases hk : s.clear_ok n
        · rw [if_pos hk] at hi
          simp at hi
          subst hi
          exact hp
        · rw [if_neg hk] at hi
          rcases List.mem_cons.mp hi with h | h
          · subst h; exact hp
          · exact ih i h
      · rw [if_neg hp] at hi
        exact ih i hi

/-- Helper: if some listed name exists, `try_clear_go` invokes at least one. -/
theorem try_clear_go_ne_nil (s : ScopeApi) (names : List (Fin 3)) (i : Fin 3)
    (hi : i ∈ names) (hp : s.clear_present i = true) :
    try_clear_go s names ≠ [] := by
  induction names with
  | nil => exact absurd hi (List.not_mem_nil i)
  | cons n rest ih =>
      simp only [try_clear_go]
      by_cases hn : s.clear_present n
      · rw [if_pos hn]
        by_cases hk : s.clear_ok n
        · rw [if_pos hk]; simp
        · rw [if_neg hk]; simp
      · rw [if_neg hn]
        rcases List.mem_cons.mp hi with h | h
        · subst h; exact absurd hp (by simpa using hn)
        · exact ih h

/-- Helper: `stop_early` preserves the flag-count invariant. -/
theorem flagCountInv_stopEarly {s : ForcedCapSt} (h : flagCountInv s) :
    flagCountInv (forcedStopEarly s) := by
  obtain ⟨h1, h2⟩ := h
  unfold flagCountInv forcedStopEarly
  cases hs : s.stop_sent <;> cases hr : s.run_sent <;>
    simp_all [List.count_append, List.count_cons, List.count_nil]

/-- Helper: iterated `stop_early` preserves the flag-count invariant. -/
theorem flagCountInv_stopEarlyN (n : ℕ) {s : ForcedCapSt} (h : flagCountInv s) :
    flagCountInv (forcedStopEarlyN n s) := by
  induction n generalizing s with
  | zero => exact h
  | succ n ih => exact ih (flagCountInv_stopEarly h)

/-- Helper: the one-shot RUN block preserves the flag-count invariant. -/
theorem flagCountInv_runStep {s : ForcedCapSt} (h : flagCountInv s) :
    flagCountInv (forcedRunStep s) := by
  obtain ⟨h1, h2⟩ := h
  unfold flagCountInv forcedRunStep
  cases hf : s.stop_flag <;> cases hr : s.run_sent <;> cases hs : s.stop_sent <;>
    simp_all [List.count_append, List.count_cons, List.count_nil]

/-- Helper: the one-shot STOP block preserves the flag-count invariant. -/
theorem flagCountInv_stopStep {s : ForcedCapSt} (h : flagCountInv s) :
    flagCountInv (forcedStopStep s) := by
  obtain ⟨h1, h2⟩ := h
  unfold flagCountInv forcedStopStep
  cases hs : s.stop_sent <;> cases hr : s.run_sent <;>
    simp_all [List.count_append, List.count_cons, List.count_nil]

/-- Helper: after the `finally` safety STOP both counts stay at most one. -/
theorem forcedFinally_counts {s : ForcedCapSt} (h : flagCountInv s) :
    (forcedFinallyStep s).events.count (Ev.writeFlag .run 1) ≤ 1 ∧
    (forcedFinallyStep s).events.count (Ev.writeFlag .stop 1) ≤ 1 := by
  obtain ⟨h1, h2⟩ := h
  unfold forcedFinallyStep
  cases hr : s.run_sent <;> cases hs : s.stop_sent <;>
    simp_all [List.count_append, List.count_cons, List.count_nil]

/-- Helper: the `MotorLogger.py` loop writes each flag at most once beyond
its guard. -/
theorem mlLoop_counts (iters : List (Bool × Bool × Bool)) :
    ∀ rs ss : Bool,
      (mlLoop iters rs ss).count (Ev.writeFlag .run 1) ≤ (if rs then 0 else 1) ∧
      (mlLoop iters rs ss).count (Ev.writeFlag .stop 1) ≤ (if ss then 0 else 1) := by
  induction iters with
  | nil => intro rs ss; simp [mlLoop]
  | cons it rest ih =>
      rintro rs ss
      obtain ⟨pr, ps, rdy⟩ := it
      have h := ih (rs || pr) (ss || ps)
      cases rs <;> cases pr <;> cases ss <;> cases ps <;> cases rdy <;>
        · simp only [mlLoop, List.count_append, List.count_cons, List.count_nil,
            Bool.false_or, Bool.true_or, Bool.or_false, Bool.or_true] at h ⊢
          simp_all

/-- Helper: maps of channel-add events contain no flag writes. -/
theorem count_writeFlag_map_addChannel (ps : List String) (v : CtrlVar) (x : ℤ) :
    (ps.map Ev.addChannel).count (Ev.writeFlag v x) = 0 := by
  rw [List.count_eq_zero]
  intro h
  rcases List.mem_map.mp h with ⟨p, _, hp⟩
  exact absurd hp (by simp)

/-- Helper: maps of variable-resolution events contain no flag writes. -/
theorem count_writeFlag_map_getVar (ps : List String) (v : CtrlVar) (x : ℤ) :
    (ps.map Ev.getVar).count (Ev.writeFlag v x) = 0 := by
  rw [List.count_eq_zero]
  intro h
  rcases List.mem_map.mp h with ⟨p, _, hp⟩
  exact absurd hp (by simp)

/-- Helper: the same for resolution events built through a projection. -/
theorem count_writeFlag_map_getVar2 {α : Type} (f : α → String) (l : List α)
    (v : CtrlVar) (x : ℤ) :
    (l.map (fun p => Ev.getVar (f p))).count (Ev.writeFlag v x) = 0 := by
  rw [List.count_eq_zero]
  intro h
  rcases List.mem_map.mp h with ⟨p, _, hp⟩
  exact absurd hp (by simp)

/-- C3 counterexample: in `tkinter-best.py` the RUN request is written to 1
twice even in the shortest capture (`repeats=2` at the timed assert, plus
one more write per 200 ms reassert period), and STOP is written to 1 three
times, so the claim that in every variant each flag is written to 1 at most
once per capture is false.  (`counts = 0`, zero reassert periods.) -/
theorem tkinter_best_run_reasserted :
    (tkinterBestControlWrites 0 0).count (Ev.writeFlag .run 1) = 2 ∧
    (tkinterBestControlWrites 0 0).count (Ev.writeFlag .stop 1) = 3 := by
  decide

/-- C3 (amended): in `Forced10secs.py` and `MotorLogger.py` the RUN/STOP
sequencing is genuinely one-shot — over every environment (any number of
stop-early presses at any point, an aborting exception, any loop schedule)
the run-request flag is written to 1 at most once per capture and the
stop-request flag at most once; `tkinter-best.py` deliberately repeats and
periodically reasserts its RUN/STOP writes and is exempt. -/
theorem run_stop_one_shot (e₁ e₂ e₃ : ℕ) (abort : Bool)
    (sampleMs counts : ℤ) (selPaths : List String)
    (iters : List (Bool × Bool × Bool)) :
    ((forcedCapture e₁ e₂ e₃ abort).events.count (Ev.writeFlag .run 1) ≤ 1 ∧
     (forcedCapture e₁ e₂ e₃ abort).events.count (Ev.writeFlag .stop 1) ≤ 1) ∧
    ((motorLoggerSessionTrace sampleMs counts selPaths iters).count
        (Ev.writeFlag .run 1) ≤ 1 ∧
     (motorLoggerSessionTrace sampleMs counts selPaths iters).count
        (Ev.writeFlag .stop 1) ≤ 1) := by
  constructor
  · have h0 : flagCountInv ⟨false, false, false, []⟩ := by
      constructor <;> simp
    have h3 : flagCountInv (forcedStopEarlyN e₂
        (forcedRunStep (forcedStopEarlyN e₁ ⟨false, false, false, []⟩))) :=
      flagCountInv_stopEarlyN e₂ (flagCountInv_runStep (flagCountInv_stopEarlyN e₁ h0))
    unfold forcedCapture
    cases abort
    · simp only [if_neg (by simp : ¬(false = true))]
      exact forcedFinally_counts
        (flagCountInv_stopEarlyN e₃ (flagCountInv_stopStep h3))
    · simp only [if_pos rfl]
      exact forcedFinally_counts h3
  · have hml := mlLoop_counts iters false false
    simp only [Bool.false_eq_true, if_false] at hml
    constructor <;>
      · simp only [motorLoggerSessionTrace, List.count_append,
          count_writeFlag_map_addChannel, count_writeFlag_map_getVar,
          count_writeFlag_map_getVar2, List.count_cons, List.count_nil]
        simp
        omega

/-- Helper: the poll loop keeps the phase scan at phase 2. -/
theorem pollLoop_cons (b : Bool) (t : List Bool) :
    pollLoop (b :: t) = pollBlock b ++ pollLoop t := by
  simp [pollLoop]

theorem phasesMonotone_pollLoop (polls : List Bool) (rest : List Ev) :
    phasesMonotone (pollLoop polls ++ rest) 2 = phasesMonotone rest 2 := by
  induction polls with
  | nil => simp [pollLoop]
  | cons b t ih =>
      rw [pollLoop_cons, List.append_assoc]
      cases b <;> simp [pollBlock, phasesMonotone, evPhase] <;> exact ih

/-- Helper: the poll loop keeps the armed scan armed. -/
theorem readsArmed_pollLoop (polls : List Bool) (rest : List Ev) :
    readsArmed (pollLoop polls ++ rest) true = readsArmed rest true := by
  induction polls with
  | nil => simp [pollLoop]
  | cons b t ih =>
      rw [pollLoop_cons, List.append_assoc]
      cases b <;> simp [pollBlock, readsArmed] <;> exact ih

/-- Helper: the poll loop sets no sample time. -/
theorem pollLoop_no_sample (polls : List Bool) (f : ℤ) :
    Ev.setSampleTime f ∉ pollLoop polls := by
  intro h
  simp only [pollLoop, List.mem_flatMap] at h
  obtain ⟨b, _, hmem⟩ := h
  cases b <;> simp [pollBlock] at hmem

/-- Helper: a list with no `setSampleTime` passes the decimation scan. -/
theorem noSampleAfterRead_of_no_sample (l : List Ev) :
    (∀ f, Ev.setSampleTime f ∉ l) → ∀ seen, noSampleAfterRead l seen = true := by
  induction l with
  | nil => intro _ _; rfl
  | cons e r ih =>
      intro h seen
      have hr : ∀ f, Ev.setSampleTime f ∉ r :=
        fun f hf => h f (List.mem_cons_of_mem _ hf)
      cases e <;>
        first
          | exact absurd (List.mem_cons_self _ _) (h _)
          | simpa [noSampleAfterRead] using ih hr _

/-- Helper: channel-add segments are neutral for the phase scan at phase 1. -/
theorem phasesMonotone_map_addChannel (ps : List String) (rest : List Ev) :
    phasesMonotone (ps.map Ev.addChannel ++ rest) 1 = phasesMonotone rest 1 := by
  induction ps with
  | nil => simp
  | cons p t ih => simp [phasesMonotone, evPhase, ih]

/-- Helper: channel-add segments are neutral for the armed scan. -/
theorem readsArmed_map_addChannel (ps : List String) (rest : List Ev) (a : Bool) :
    readsArmed (ps.map Ev.addChannel ++ rest) a = readsArmed rest a := by
  induction ps with
  | nil => simp
  | cons p t ih => simp [readsArmed, ih]

/-- Helper: channel-add segments are neutral for the decimation scan. -/
theorem noSampleAfterRead_map_addChannel (ps : List String) (rest : List Ev)
    (seen : Bool) :
    noSampleAfterRead (ps.map Ev.addChannel ++ rest) seen =
      noSampleAfterRead rest seen := by
  induction ps with
  | nil => simp
  | cons p t ih => simp [noSampleAfterRead, ih]

/-- Helper: the `MotorLogger.py` loop keeps the phase scan at phase 2. -/
theorem phasesMonotone_mlLoop (iters : List (Bool × Bool × Bool)) :
    ∀ rs ss : Bool, ∀ rest : List Ev,
      phasesMonotone (mlLoop iters rs ss ++ rest) 2 = phasesMonotone rest 2 := by
  induction iters with
  | nil => intro rs ss rest; simp [mlLoop]
  | cons it t ih =>
      rintro rs ss rest
      obtain ⟨pr, ps, rdy⟩ := it
      cases rs <;> cases pr <;> cases ss <;> cases ps <;> cases rdy <;>
        simp [mlLoop, phasesMonotone, evPhase, ih]

/-- Helper: the `MotorLogger.py` loop keeps the armed scan armed. -/
theorem readsArmed_mlLoop (iters : List (Bool × Bool × Bool)) :
    ∀ rs ss : Bool, ∀ rest : List Ev,
      readsArmed (mlLoop iters rs ss ++ rest) true = readsArmed rest true := by
  induction iters with
  | nil => intro rs ss rest; simp [mlLoop]
  | cons it t ih =>
      rintro rs ss rest
      obtain ⟨pr, ps, rdy⟩ := it
      cases rs <;> cases pr <;> cases ss <;> cases ps <;> cases rdy <;>
        simp [mlLoop, readsArmed, ih]

/-- Helper: the `MotorLogger.py` loop sets no sample time. -/
theorem mlLoop_no_sample (iters : List (Bool × Bool × Bool)) :
    ∀ rs ss : Bool, ∀ f : ℤ, Ev.setSampleTime f ∉ mlLoop iters rs ss := by
  induction iters with
  | nil => intro rs ss f h; simp [mlLoop] at h
  | cons it t ih =>
      rintro rs ss f h
      obtain ⟨pr, ps, rdy⟩ := it
      have := ih (rs || pr) (ss || ps) f
      cases rs <;> cases pr <;> cases ss <;> cases ps <;> cases rdy <;>
        simp_all [mlLoop]

/-- C4: in `MotorLogger4.py`, `Forced10secs.py` and `MotorLogger.py`, every
capture session performs the SDK calls in the claimed linear order
(resolution, then channel configuration and decimation, then arming, then
polling and reading); in particular, over every environment, a channel-data
read never happens before the scope has been armed, and the decimation
factor is never set after the first read. -/
theorem sdk_call_order (counts counts₂ sampleMs countsML : ℤ)
    (polls polls₂ : List Bool) (tailReady tailReady₂ : Bool)
    (selPaths : List String) (iters : List (Bool × Bool × Bool)) :
    sdkOrderOk (motorLogger4Trace counts polls tailReady) = true ∧
    sdkOrderOk (forcedSessionTrace counts₂ polls₂ tailReady₂) = true ∧
    sdkOrderOk (motorLoggerSessionTrace sampleMs countsML selPaths iters) =
      true := by
  have hmlP : phasesMonotone (mlLoop iters false false) 2 = true := by
    have h := phasesMonotone_mlLoop iters false false []
    simpa using h
  have hmlA : readsArmed (mlLoop iters false false) true = true := by
    have h := readsArmed_mlLoop iters false false []
    simpa using h
  have hmlS : noSampleAfterRead (mlLoop iters false false) false = true :=
    noSampleAfterRead_of_no_sample _ (fun f => mlLoop_no_sample iters false false f) false
  refine ⟨?_, ?_, ?_⟩
  · simp only [sdkOrderOk, Bool.and_eq_true]
    refine ⟨⟨?_, ?_⟩, ?_⟩
    · cases tailReady <;>
        simp [motorLogger4Trace, MONITOR_VARS_MotorLogger4,
          CONTROL_VAR_PATHS_MotorLogger4, phasesMonotone, evPhase,
          phasesMonotone_pollLoop, pollBlock]
    · cases tailReady <;>
        simp [motorLogger4Trace, MONITOR_VARS_MotorLogger4,
          CONTROL_VAR_PATHS_MotorLogger4, readsArmed,
          readsArmed_pollLoop, pollBlock]
    · cases tailReady <;>
        · simp only [motorLogger4Trace, MONITOR_VARS_MotorLogger4,
            CONTROL_VAR_PATHS_MotorLogger4, List.map, List.cons_append,
            List.nil_append, List.append_assoc, List.singleton_append,
            noSampleAfterRead, Bool.not_false, Bool.true_and]
          apply noSampleAfterRead_of_no_sample
          intro f hf
          simp [pollBlock] at hf
          exact pollLoop_no_sample polls f hf
  · simp only [sdkOrderOk, Bool.and_eq_true]
    refine ⟨⟨?_, ?_⟩, ?_⟩
    · cases tailReady₂ <;>
        simp [forcedSessionTrace, MONITOR_VARS_Forced10secs, CtrlVar.path,
          phasesMonotone, evPhase, phasesMonotone_pollLoop, pollBlock]
    · cases tailReady₂ <;>
        simp [forcedSessionTrace, MONITOR_VARS_Forced10secs, CtrlVar.path,
          readsArmed, readsArmed_pollLoop, pollBlock]
    · cases tailReady₂ <;>
        · simp only [forcedSessionTrace, MONITOR_VARS_Forced10secs,
            CtrlVar.path, List.map, List.cons_append, List.nil_append,
            List.append_assoc, List.singleton_append,
            noSampleAfterRead, Bool.not_false, Bool.true_and]
          apply noSampleAfterRead_of_no_sample
          intro f hf
          simp [pollBlock] at hf
          exact pollLoop_no_sample polls₂ f hf
  · simp only [sdkOrderOk, Bool.and_eq_true]
    refine ⟨⟨?_, ?_⟩, ?_⟩
    · simp [motorLoggerSessionTrace, VAR_PATHS_MotorLogger, CtrlVar.path,
        phasesMonotone, evPhase, phasesMonotone_map_addChannel, hmlP]
    · simp [motorLoggerSessionTrace, VAR_PATHS_MotorLogger, CtrlVar.path,
        readsArmed, readsArmed_map_addChannel, hmlA]
    · simp [motorLoggerSessionTrace, VAR_PATHS_MotorLogger, CtrlVar.path,
        noSampleAfterRead, noSampleAfterRead_map_addChannel, hmlS]

/-- Helper: a left fold of `min` is bounded by its seed. -/
theorem foldl_min_le_init (x : ℕ) (xs : List ℕ) : xs.foldl min x ≤ x := by
  induction xs generalizing x with
  | nil => exact le_rfl
  | cons a t ih => exact le_trans (ih (min x a)) (min_le_left x a)

/-- Helper: a left fold of `min` is bounded by every element. -/
theorem foldl_min_le_mem (x : ℕ) (xs : List ℕ) : ∀ y ∈ xs, xs.foldl min x ≤ y := by
  induction xs generalizing x with
  | nil => intro y hy; exact absurd hy (List.not_mem_nil y)
  | cons a t ih =>
      intro y hy
      rcases List.mem_cons.mp hy with h | h
      · subst h
        exact le_trans (foldl_min_le_init (min x y) t) (min_le_right x y)
      · exact ih (min x a) y h

/-- Helper: `minLen` bounds every member's length. -/
theorem minLen_le (ls : List (List ℚ)) : ∀ c ∈ ls, minLen ls ≤ c.length := by
  intro c hc
  have hmem : c.length ∈ ls.map List.length := List.mem_map_of_mem _ hc
  unfold minLen
  cases hm : ls.map List.length with
  | nil => rw [hm] at hmem; exact absurd hmem (List.not_mem_nil _)
  | cons x xs =>
      rw [hm] at hmem
      rcases List.mem_cons.mp hmem with h | h
      · rw [h]; exact foldl_min_le_init x xs
      · exact foldl_min_le_mem x xs _ h

/-- Helper: `Forced10secs.py`'s finalisation is rectangular and uniform for
every accumulated buffer. -/
theorem forcedFinalize_rect (data : List (List ℚ)) :
    (∀ col ∈ (forcedFinalize data).2,
      col.length = (forcedFinalize data).1.length) ∧
    (forcedFinalize data).1 =
      (List.range (forcedFinalize data).1.length).map
        (fun (i : ℕ) => (i : ℚ) * TS_S) := by
  constructor
  · intro col hcol
    simp only [forcedFinalize] at hcol ⊢
    rcases List.mem_map.mp hcol with ⟨c, hc, rfl⟩
    simp only [List.length_take, List.length_map, List.length_range]
    exact min_eq_left (minLen_le data c hc)
  · simp [forcedFinalize]

/-- Helper: `tkinter-best.py`'s finalisation is rectangular and uniform for
every non-empty read. -/
theorem tkFinalize_rect (Fs PRE dur : ℚ) (selected : List String)
    (scaleOf : String → ℚ) (raw : List (String × List ℚ))
    (t : List ℚ) (mr : List ℤ) (cols : List (String × List ℚ))
    (h : tkFinalize Fs PRE dur selected scaleOf raw = some (t, mr, cols)) :
    (∀ kc ∈ cols, kc.2.length = t.length) ∧ mr.length = t.length ∧
    t = (List.range t.length).map (fun (i : ℕ) => (i : ℚ) / Fs) := by
  cases raw with
  | nil => simp [tkFinalize] at h
  | cons r0 rt =>
      simp only [tkFinalize, Option.some.injEq, Prod.mk.injEq] at h
      obtain ⟨ht, hmr, hcols⟩ := h
      subst ht hmr hcols
      refine ⟨?_, by simp, by simp⟩
      intro kc hkc
      rcases List.mem_filterMap.mp hkc with ⟨cv, hcv, heq⟩
      rcases hpk : pathToKey_tkinter cv.1 with _ | key
      · simp [hpk] at heq
      · by_cases hsel : key ∈ selected
        · simp only [hpk, if_pos hsel, Option.some.injEq] at heq
          subst heq
          simp only [List.length_map, List.length_take, List.length_range]
          exact min_eq_left (minLen_le _ _ (List.mem_map_of_mem Prod.snd hcv))
        · simp [hpk, hsel] at heq

/-- C5 counterexample: in `MotorLogger.py` a single ready chunk whose two
channel lists have different lengths (`[1, 2]` vs `[3]`) leaves, after
`_worker_done`'s clipping, a time column of length 2 but an `Idq_q` column
of length 1 — the buffer handed to plotting/export is not rectangular, so
the claim is false for this variant. -/
theorem motorlogger_buffer_ragged :
    (mlCaptureBuffer (1/200) (fun _ => 1) ["idqCmd_q", "Idq_q"]
      [(true, [("motor.idqCmd.q", [1, 2]), ("motor.idq.q", [3])])]).t.length
      = 2 ∧
    ((mlCaptureBuffer (1/200) (fun _ => 1) ["idqCmd_q", "Idq_q"]
      [(true, [("motor.idqCmd.q", [1, 2]), ("motor.idq.q", [3])])]).cols
        "Idq_q").length = 1 := by
  constructor <;> rfl

/-- Helper: folding `mlUpd` over an aligned chunk grows each selected
column by exactly the common chunk length `n`, and touches nothing else. -/
theorem mlFold_cols_length (scaleOf : String → ℚ) :
    ∀ (chans : List (String × List ℚ)) (sel : List String)
      (cols : String → List ℚ) (n : ℕ),
      chans.map (fun cv => pathToKey_MotorLogger cv.1) = sel.map some →
      sel.Nodup →
      (∀ cv ∈ chans, cv.2.length = n) →
      (∀ k ∈ sel,
        ((chans.foldl (mlUpd scaleOf) cols) k).length = (cols k).length + n) ∧
      (∀ k, k ∉ sel → (chans.foldl (mlUpd scaleOf) cols) k = cols k) := by
  intro chans
  induction chans with
  | nil =>
      intro sel cols n hmap _ _
      have : sel = [] := by
        cases sel with
        | nil => rfl
        | cons s st => simp at hmap
      subst this
      exact ⟨by simp, fun k _ => rfl⟩
  | cons cv ct ih =>
      intro sel cols n hmap hnd hlen
      cases sel with
      | nil => simp at hmap
      | cons s st =>
          simp only [List.map_cons, List.cons.injEq] at hmap
          obtain ⟨hpk, hmap'⟩ := hmap
          have hnd' : st.Nodup := (List.nodup_cons.mp hnd).2
          have hs : s ∉ st := (List.nodup_cons.mp hnd).1
          have hlen0 : cv.2.length = n := hlen cv (List.mem_cons_self _ _)
          have hlen' : ∀ c ∈ ct, c.2.length = n :=
            fun c hc => hlen c (List.mem_cons_of_mem _ hc)
          simp only [List.foldl_cons]
          by_cases hcv : cv.2 = []
          · have hn : n = 0 := by rw [← hlen0, hcv]; rfl
            have hupd : mlUpd scaleOf cols cv = cols := by
              simp [mlUpd, hcv]
            rw [hupd]
            have h := ih st cols n hmap' hnd' hlen'
            refine ⟨?_, ?_⟩
            · intro k hk
              rcases List.mem_cons.mp hk with rfl | hk'
              · rw [h.2 k hs, hn]
                simp
              · exact h.1 k hk'
            · intro k hk
              exact h.2 k (fun hk' => hk (List.mem_cons_of_mem _ hk'))
          · have hupd : mlUpd scaleOf cols cv = fun k =>
                if k = s then cols k ++ cv.2.map (fun v => v * scaleOf s)
                else cols k := by
              simp [mlUpd, hcv, hpk]
            rw [hupd]
            have h := ih st (fun k =>
              if k = s then cols k ++ cv.2.map (fun v => v * scaleOf s)
              else cols k) n hmap' hnd' hlen'
            refine ⟨?_, ?_⟩
            · intro k hk
              rcases List.mem_cons.mp hk with rfl | hk'
              · rw [h.2 k hs]
                simp [hlen0]
              · have hkne : k ≠ s := fun hks => hs (hks ▸ hk')
                rw [h.1 k hk']
                simp [hkne]
            · intro k hk
              have hkne : k ≠ s := fun hks => hk (hks ▸ List.mem_cons_self _ _)
              have hknst : k ∉ st := fun hk' => hk (List.mem_cons_of_mem _ hk')
              rw [h.2 k hknst]
              simp [hkne]

/-- Helper: one aligned chunk preserves rectangularity and time
uniformity of the `MotorLogger.py` buffer. -/
theorem mlProcessChunk_rect (ts : ℚ) (scaleOf : String → ℚ)
    (sel : List String) (buf : MLBuf) (c : Bool × List (String × List ℚ))
    (hali : chunkAligned sel c) (hnd : sel.Nodup)
    (hmr : buf.motorRunning.length = buf.t.length)
    (hcols : ∀ k ∈ sel, (buf.cols k).length = buf.t.length)
    (ht : buf.t = (List.range buf.t.length).map (fun (i : ℕ) => (i : ℚ) * ts)) :
    (mlProcessChunk ts scaleOf buf c).motorRunning.length =
      (mlProcessChunk ts scaleOf buf c).t.length ∧
    (∀ k ∈ sel, ((mlProcessChunk ts scaleOf buf c).cols k).length =
      (mlProcessChunk ts scaleOf buf c).t.length) ∧
    (mlProcessChunk ts scaleOf buf c).t =
      (List.range (mlProcessChunk ts scaleOf buf c).t.length).map
        (fun (i : ℕ) => (i : ℚ) * ts) := by
  obtain ⟨b, chans⟩ := c
  obtain ⟨hmap, hlen⟩ := hali
  cases chans with
  | nil => exact ⟨hmr, hcols, ht⟩
  | cons c0 rest =>
      have hfold := mlFold_cols_length scaleOf (c0 :: rest) sel buf.cols
        c0.2.length hmap hnd
        (by
          intro cv hcv
          have h := hlen cv hcv
          simpa using h)
      simp only [mlProcessChunk]
      refine ⟨?_, ?_, ?_⟩
      · simp [hmr]
      · intro k hk
        have h1 := hfold.1 k hk
        simp only [h1, hcols k hk]
        simp
      · have hlt : (buf.t ++ (List.range c0.2.length).map
            (fun i => ((buf.t.length + i : ℕ) : ℚ) * ts)).length =
            buf.t.length + c0.2.length := by simp
        simp only [hlt, List.range_add, List.map_append, List.map_map]
        congr 1

/-- Helper: any schedule of aligned chunks leaves the worker buffer
rectangular and uniform. -/
theorem mlFoldChunks_rect (ts : ℚ) (scaleOf : String → ℚ)
    (sel : List String) (hnd : sel.Nodup) :
    ∀ (chunks : List (Bool × List (String × List ℚ))) (buf : MLBuf),
      (∀ c ∈ chunks, chunkAligned sel c) →
      buf.motorRunning.length = buf.t.length →
      (∀ k ∈ sel, (buf.cols k).length = buf.t.length) →
      buf.t = (List.range buf.t.length).map (fun (i : ℕ) => (i : ℚ) * ts) →
      (chunks.foldl (mlProcessChunk ts scaleOf) buf).motorRunning.length =
        (chunks.foldl (mlProcessChunk ts scaleOf) buf).t.length ∧
      (∀ k ∈ sel,
        ((chunks.foldl (mlProcessChunk ts scaleOf) buf).cols k).length =
          (chunks.foldl (mlProcessChunk ts scaleOf) buf).t.length) ∧
      (chunks.foldl (mlProcessChunk ts scaleOf) buf).t =
        (List.range (chunks.foldl (mlProcessChunk ts scaleOf) buf).t.length).map
          (fun (i : ℕ) => (i : ℚ) * ts) := by
  intro chunks
  induction chunks with
  | nil => intro buf _ hmr hcols ht; exact ⟨hmr, hcols, ht⟩
  | cons c ct ih =>
      intro buf hch hmr hcols ht
      have hstep := mlProcessChunk_rect ts scaleOf sel buf c
        (hch c (List.mem_cons_self _ _)) hnd hmr hcols ht
      exact ih (mlProcessChunk ts scaleOf buf c)
        (fun c' hc' => hch c' (List.mem_cons_of_mem _ hc'))
        hstep.1 hstep.2.1 hstep.2.2

/-- C5 (amended): after every completed capture the in-memory buffer is
rectangular with a uniform time vector `t[i] = i * Ts` in `Forced10secs.py`
(over every chunk schedule, `Ts = TS_S`) and in `tkinter-best.py` (over
every non-empty read, `Ts = 1/Fs`); in `MotorLogger.py` the same holds
provided every ready chunk delivers equal-length value lists covering
exactly the selected keys — the alignment its code assumes (`all lists are
equal`) but does not check; without it the buffer can be ragged, as the
counterexample shows. -/
theorem capture_buffers_rectangular
    (chunksF : List (List (List ℚ)))
    (Fs PRE dur : ℚ) (selTk : List String) (scaleTk : String → ℚ)
    (raw : List (String × List ℚ)) (t : List ℚ) (mr : List ℤ)
    (cols : List (String × List ℚ))
    (ts : ℚ) (scaleML : String → ℚ) (selML : List String)
    (chunksML : List (Bool × List (String × List ℚ)))
    (htk : tkFinalize Fs PRE dur selTk scaleTk raw = some (t, mr, cols))
    (hnd : selML.Nodup)
    (hch : ∀ c ∈ chunksML, chunkAligned selML c) :
    ((∀ col ∈ (forcedCaptureBuffer chunksF).2,
        col.length = (forcedCaptureBuffer chunksF).1.length) ∧
     (forcedCaptureBuffer chunksF).1 =
       (List.range (forcedCaptureBuffer chunksF).1.length).map
         (fun (i : ℕ) => (i : ℚ) * TS_S)) ∧
    ((∀ kc ∈ cols, kc.2.length = t.length) ∧ mr.length = t.length ∧
     t = (List.range t.length).map (fun (i : ℕ) => (i : ℚ) / Fs)) ∧
    ((mlCaptureBuffer ts scaleML selML chunksML).motorRunning.length =
       (mlCaptureBuffer ts scaleML selML chunksML).t.length ∧
     (∀ k ∈ selML,
       ((mlCaptureBuffer ts scaleML selML chunksML).cols k).length =
         (mlCaptureBuffer ts scaleML selML chunksML).t.length) ∧
     (mlCaptureBuffer ts scaleML selML chunksML).t =
       (List.range (mlCaptureBuffer ts scaleML selML chunksML).t.length).map
         (fun (i : ℕ) => (i : ℚ) * ts)) := by
  refine ⟨forcedFinalize_rect _,
    tkFinalize_rect Fs PRE dur selTk scaleTk raw t mr cols htk, ?_⟩
  have hfold := mlFoldChunks_rect ts scaleML selML hnd chunksML
    ⟨[], [], fun _ => []⟩ hch (by simp) (by intro k _; simp) (by simp)
  unfold mlCaptureBuffer mlWorkerDone
  by_cases htB : (chunksML.foldl (mlProcessChunk ts scaleML)
      ⟨[], [], fun _ => []⟩).t = []
  · rw [if_pos htB]
    exact hfold
  · simp only [if_neg htB]
    refine ⟨?_, ?_, ?_⟩
    · simp [List.length_take, hfold.1]
    · intro k hk
      simp [if_pos hk, List.length_take, hfold.2.1 k hk]
    · exact hfold.2.2

/-- C5 witness: the rectangularity at a concrete instance — an aligned
single-chunk `MotorLogger.py` capture, with the `tkinter-best.py` hypothesis
discharged on a one-channel read of an unknown path. -/
theorem capture_buffers_rectangular_witness :
    (mlCaptureBuffer 1 (fun _ => 1) ["idqCmd_q"]
        [(true, [("motor.idqCmd.q", [2])])]).motorRunning.length =
      (mlCaptureBuffer 1 (fun _ => 1) ["idqCmd_q"]
        [(true, [("motor.idqCmd.q", [2])])]).t.length := by
  have h := capture_buffers_rectangular [] 1 0 1 ["Idq_q"] (fun _ => 1)
    [("x", [])] [] [] [] 1 (fun _ => 1) ["idqCmd_q"]
    [(true, [("motor.idqCmd.q", [2])])]
    rfl (by simp) (by decide)
  exact h.2.2.1

/-- C6: the guard helpers are total and swallow SDK failures: `try_write`
returns `True` exactly when one of the two write styles is present and
returns normally (and `False` when both are unavailable or raise);
`try_clear_channels` invokes only existing clear-channel names, invokes one
whenever one exists, and always returns (it is a total function of the
modelled SDK surface); `get_total_ms_via_api` returns `0.0` whenever the
method is absent, or the call raises, or the `TypeError` fallback path fails
(raises, returns a non-number, or returns a value `≤ 1.0`). -/
theorem guard_helpers_total (s : ScopeApi) (h : WriteHandle) :
    (try_write s h =
      ((h.has_set_value && h.set_value_ok) || (s.has_write && s.write_ok))) ∧
    (∀ i ∈ try_clear_channels s, s.clear_present i = true) ∧
    ((∃ i, s.clear_present i = true) → try_clear_channels s ≠ []) ∧
    (s.has_gst = false → get_total_ms_via_api s = 0) ∧
    (s.gst_arg = GstArgOutcome.raises → get_total_ms_via_api s = 0) ∧
    (s.gst_arg = GstArgOutcome.typeError →
      (s.gst_noarg = GstNoargOutcome.raises ∨
       s.gst_noarg = GstNoargOutcome.okOther ∨
       ∃ r, s.gst_noarg = GstNoargOutcome.okNum r ∧ r ≤ 1) →
      get_total_ms_via_api s = 0) := by
  obtain ⟨hsv, hok⟩ := h
  refine ⟨?_, ?_, ?_, ?_, ?_, ?_⟩
  · cases hsv <;> cases hok <;> cases hw : s.has_write <;>
      cases hwo : s.write_ok <;> simp [try_write, hw, hwo]
  · exact try_clear_go_present s [0, 1, 2]
  · rintro ⟨i, hi⟩
    exact try_clear_go_ne_nil s [0, 1, 2] i (by fin_cases i <;> simp) hi
  · intro hg
    simp [get_total_ms_via_api, hg]
  · intro hg
    simp [get_total_ms_via_api, hg]
  · intro hg hn
    rcases hn with hn | hn | ⟨r, hn, hr⟩
    · simp [get_total_ms_via_api, hg, hn]
    · simp [get_total_ms_via_api, hg, hn]
    · simp [get_total_ms_via_api, hg, hn, not_lt.mpr hr]

/-- C6 witness: the helpers at a concrete SDK surface where `set_value` and
`write` are unavailable, all three clear names exist but raise, and
`get_scope_sample_time` raises `TypeError` with a raising fallback. -/
theorem guard_helpers_total_witness :
    try_clear_channels
        ⟨false, false, fun _ => true, fun _ => false, true,
          GstArgOutcome.typeError, GstNoargOutcome.raises⟩ ≠ [] ∧
    get_total_ms_via_api
        ⟨false, false, fun _ => true, fun _ => false, true,
          GstArgOutcome.typeError, GstNoargOutcome.raises⟩ = 0 := by
  have h := guard_helpers_total
    ⟨false, false, fun _ => true, fun _ => false, true,
      GstArgOutcome.typeError, GstNoargOutcome.raises⟩ ⟨false, false⟩
  exact ⟨h.2.2.1 ⟨0, rfl⟩, h.2.2.2.2.2 rfl (Or.inl rfl)⟩

/-- C9: with the guard enabled, a start request whose interval is below 1 ms
is rejected with none of the tracked effects (no buffer reset, no velocity
write, no thread); when all other validations pass the rejection is exactly
the interval check; with the guard disabled the interval check never fires,
so any positive interval passes it.  Both `MotorLogger.py` and
`NewVersion.py` behave identically. -/
theorem start_capture_interval_guard (rpm scale dur dt_ms : ℚ)
    (connected : Bool) (sel : List String) :
    (dt_ms < 1 →
      (start_capture_MotorLogger rpm scale dur dt_ms connected sel true).2 =
          noStartEffects ∧
      (start_capture_MotorLogger rpm scale dur dt_ms connected sel true).1 ≠
          StartOutcome.started ∧
      (start_capture_NewVersion rpm scale dur dt_ms connected sel true).2 =
          noStartEffects ∧
      (start_capture_NewVersion rpm scale dur dt_ms connected sel true).1 ≠
          StartOutcome.started) ∧
    (0 ≤ rpm → 0 < scale → 0 < dur → 0 < dt_ms → dt_ms < 1 →
      connected = true → sel ≠ [] →
      (start_capture_MotorLogger rpm scale dur dt_ms connected sel true).1 =
          StartOutcome.intervalRejected ∧
      (start_capture_NewVersion rpm scale dur dt_ms connected sel true).1 =
          StartOutcome.intervalRejected) ∧
    ((start_capture_MotorLogger rpm scale dur dt_ms connected sel false).1 ≠
        StartOutcome.intervalRejected ∧
     (start_capture_NewVersion rpm scale dur dt_ms connected sel false).1 ≠
        StartOutcome.intervalRejected) := by
  refine ⟨?_, ?_, ?_⟩
  · intro h
    simp only [start_capture_MotorLogger, start_capture_NewVersion, MIN_DELAY_MS]
    split_ifs <;> simp_all
  · intro h1 h2 h3 h4 h5 h6 h7
    simp only [start_capture_MotorLogger, start_capture_NewVersion, MIN_DELAY_MS]
    split_ifs with hA <;> simp_all
    rcases hA with h | h | h | h <;> linarith
  · simp only [start_capture_MotorLogger, start_capture_NewVersion, MIN_DELAY_MS]
    split_ifs <;> simp_all

/-- C9 witness: the guard at the concrete request
`rpm = 0, scale = 1, dur = 1, dt_ms = 1/2, connected, one variable`. -/
theorem start_capture_interval_guard_witness :
    (start_capture_MotorLogger 0 1 1 (1/2) true ["idqCmd_q"] true).1 =
        StartOutcome.intervalRejected ∧
    (start_capture_NewVersion 0 1 1 (1/2) true ["idqCmd_q"] true).1 =
        StartOutcome.intervalRejected := by
  exact (start_capture_interval_guard 0 1 1 (1/2) true ["idqCmd_q"]).2.1
    (by norm_num) (by norm_num) (by norm_num) (by norm_num) (by norm_num)
    rfl (by simp)

/-- C10: `estimate_total_time_ms(factor, num_vars)` equals
`24 + 24.5 * (factor - 1)` for every factor, and is independent of
`num_vars`. -/
theorem estimate_total_time_ms_spec (factor n₁ n₂ : ℤ) :
    estimate_total_time_ms factor n₁ = 24 + (49/2 : ℚ) * ((factor : ℚ) - 1) ∧
    estimate_total_time_ms factor n₁ = estimate_total_time_ms factor n₂ :=
  ⟨rfl, rfl⟩

end MotorLogger
